import Mathlib

/-!
Verification of the antigravity2api gateway against its specification.

The development shallow-embeds the parts of the source that the claims
touch: the credential pool and rotation engine (`src/auth/token_manager.js`),
the quota cache (`src/auth/quota_manager.js`), the parameter normalizer
(`src/utils/parameterNormalizer.js`), the Gemini request converter
(`src/utils/converters/gemini.js`), and the gateway frontend (API-key
middleware, Gemini response builder and Claude streaming state machine).

JavaScript conventions are modelled explicitly:
* an optional / nullable field is an `Option`;
* JS truthiness of numbers and strings (`!x`) is `jsFalsyNum` / `jsFalsyStr`
  (`undefined`, `null`, `0` and `""` are falsy);
* `JSON.parse` of a tool-call `arguments` string either throws or yields a
  value; its outcome is modelled as an `Option String` (`none` = the string
  is not valid JSON, `some v` = the parsed value, kept abstract);
* machine numbers are modelled as `Int` — the embedded code only copies
  them, compares them with `0` and adds/multiplies small constants, so no
  floating-point behaviour is involved.

File I/O is modelled as pure functions from the old file contents to the new
file contents; HTTP calls (OAuth refresh, project-id discovery) are external
I/O and are represented by explicit result constructors where the control
flow depends on them.
-/

/-- JS truthiness test for an optional numeric field: `!x` is `true` exactly
when the field is missing (`undefined` / `null`) or equal to `0`. -/
def jsFalsyNum : Option Int → Bool
  | none => true
  | some v => v == 0

/-- JS truthiness test for an optional string field: `!x` is `true` exactly
when the field is missing or the empty string. -/
def jsFalsyStr : Option String → Bool
  | none => true
  | some s => s == ""

/-- JS `a || b` on optional strings: `b` when `a` is falsy, otherwise `a`. -/
def jsOrStr (a b : Option String) : Option String :=
  if jsFalsyStr a then b else a

/-- In-memory credential, from `token_manager.js`.  The fields the embedded
operations read: `refresh_token` (identity key), `timestamp` (ms epoch of the
last refresh), `expires_in` (seconds), `hasQuota` (`true` also stands for the
JS `undefined`, since the source only ever compares `hasQuota === false`),
`projectId`. -/
structure TMToken where
  refresh_token : String
  timestamp : Option Int
  expires_in : Option Int
  hasQuota : Bool
  projectId : Option String
deriving Repr, DecidableEq

/-- Expiry predicate of `token_manager.js` (`isExpired`): `true` when
`timestamp` or `expires_in` is falsy, otherwise
`now ≥ timestamp + expires_in*1000 - 300000`. -/
def isExpired (now : Int) (t : TMToken) : Bool :=
  if jsFalsyNum t.timestamp || jsFalsyNum t.expires_in then true
  else
    let expiresAt := t.timestamp.getD 0 + t.expires_in.getD 0 * 1000
    decide (now ≥ expiresAt - 300000)

/-- Rotation strategies of `token_manager.js` (`RotationStrategy`). -/
inductive RotationStrategy where
  | round_robin
  | quota_exhausted
  | request_count
deriving Repr, DecidableEq

/-- Mutable state of the `TokenManager` that the rotation engine reads and
writes: the in-memory credential list, `currentIndex`, the configured
strategy with its `requestCountPerToken`, and the per-credential request
counters (`tokenRequestCounts`, a map keyed by `refresh_token`). -/
structure TMState where
  tokens : List TMToken
  currentIndex : Nat
  rotationStrategy : RotationStrategy
  requestCountPerToken : Nat
  tokenRequestCounts : List (String × Nat)
deriving Repr, DecidableEq

/-- Read a per-credential counter (missing key counts as `0`). -/
def countsGet (m : List (String × Nat)) (k : String) : Nat :=
  ((m.find? fun p => p.1 == k).map Prod.snd).getD 0

/-- Write a per-credential counter. -/
def countsSet (m : List (String × Nat)) (k : String) (v : Nat) : List (String × Nat) :=
  if m.any (fun p => p.1 == k) then
    m.map fun p => if p.1 == k then (k, v) else p
  else m ++ [(k, v)]

/-- Strategy decision of `token_manager.js` (`shouldRotate`): whether to
advance `currentIndex` after a successful `getToken`.  Under `request_count`
the counter is incremented (and reset on rotation) inside the predicate, so
the result carries the updated state. -/
def shouldRotate (s : TMState) (t : TMToken) : Bool × TMState :=
  match s.rotationStrategy with
  | .round_robin => (true, s)
  | .quota_exhausted => (t.hasQuota == false, s)
  | .request_count =>
      let newCount := countsGet s.tokenRequestCounts t.refresh_token + 1
      let s1 := { s with tokenRequestCounts := countsSet s.tokenRequestCounts t.refresh_token newCount }
      if s.requestCountPerToken ≤ newCount then
        (true, { s1 with tokenRequestCounts := countsSet s1.tokenRequestCounts t.refresh_token 0 })
      else (false, s1)

/-- Quota-exhaustion marking of `token_manager.js` (`markQuotaExhausted`):
clear the credential's `hasQuota` flag and, under the `quota_exhausted`
strategy, advance `currentIndex` by one immediately.  (The accompanying file
write is modelled separately by `saveToFileOne`.) -/
def markQuotaExhausted (s : TMState) (rk : String) : TMState :=
  let tokens := s.tokens.map fun t =>
    if t.refresh_token == rk then { t with hasQuota := false } else t
  let s1 := { s with tokens := tokens }
  if s1.rotationStrategy == .quota_exhausted then
    { s1 with currentIndex := (s1.currentIndex + 1) % max s1.tokens.length 1 }
  else s1

/-- Outcome of one `getToken` call.  `token` is a success committed through
the scan loop; `resetToken` is the `quota_exhausted` all-skipped branch that
resets every `hasQuota` to `true` and returns the first credential WITHOUT
any refresh; `ioRefresh` / `ioProjectId` mark the points where the source
performs an OAuth refresh or a project-id discovery call — network I/O whose
outcome is outside this model. -/
inductive GetTokenRes where
  | token (t : TMToken) (s : TMState)
  | resetToken (t : TMToken) (s : TMState)
  | noToken (s : TMState)
  | ioRefresh (t : TMToken) (s : TMState)
  | ioProjectId (t : TMToken) (s : TMState)
deriving Repr, DecidableEq

/-- Scan loop of `token_manager.js` `getToken`: starting at `startIndex`,
examine up to `total` credentials circularly.  A `quota_exhausted` scan skips
credentials with `hasQuota == false`; an expired credential triggers an OAuth
refresh (`ioRefresh`); a credential without `projectId` triggers discovery
(`ioProjectId`); otherwise the index is committed, the strategy post-advance
applied, and the credential returned.  When every credential was skipped, the
`quota_exhausted` strategy resets all `hasQuota` flags and returns the first
credential; other strategies return `noToken`. -/
def getTokenLoop (now : Int) (startIndex total : Nat) : Nat → Nat → TMState → GetTokenRes
  | 0, _, s =>
    if s.rotationStrategy == .quota_exhausted then
      let s1 := { s with tokens := s.tokens.map fun t : TMToken => { t with hasQuota := true } }
      match s1.tokens.head? with
      | some t => .resetToken t s1
      | none => .noToken s1
    else .noToken s
  | fuel + 1, i, s =>
    let index := (startIndex + i) % total
    match s.tokens[index]? with
    | none => .noToken s
    | some t =>
      if s.rotationStrategy == .quota_exhausted && t.hasQuota == false then
        getTokenLoop now startIndex total fuel (i + 1) s
      else if isExpired now t then
        .ioRefresh t s
      else if t.projectId.isNone then
        .ioProjectId t s
      else
        let s1 := { s with currentIndex := index }
        let r := shouldRotate s1 t
        let s2 := if r.1 then { r.2 with currentIndex := (r.2.currentIndex + 1) % total } else r.2
        .token t s2

/-- Entry point of `token_manager.js` `getToken`. -/
def getToken (now : Int) (s : TMState) : GetTokenRes :=
  if s.tokens.length == 0 then .noToken s
  else getTokenLoop now s.currentIndex s.tokens.length s.tokens.length 0 s

/-- Identity of the credential a `getToken` call produced, if any. -/
def resId : GetTokenRes → Option String
  | .token t _ => some t.refresh_token
  | .resetToken t _ => some t.refresh_token
  | _ => none

/-- Whether a `getToken` call ended at an OAuth refresh attempt. -/
def wasRefreshAttempt : GetTokenRes → Bool
  | .ioRefresh _ _ => true
  | _ => false

/-- One call of the C2 scenario script: a `getToken()` or a
`markQuotaExhausted` on the credential named by its `refresh_token`. -/
inductive TMCall where
  | get
  | markExhausted (rk : String)
deriving Repr, DecidableEq

/-- Run a script of calls against the manager, collecting the credential
returned by each `getToken()` (the I/O outcomes `ioRefresh` / `ioProjectId`
and `noToken` record `none` and leave the state unchanged). -/
def runCalls (now : Int) (s : TMState) : List TMCall → List (Option String) × TMState
  | [] => ([], s)
  | .get :: rest =>
    match getToken now s with
    | .token t s1 =>
      let r := runCalls now s1 rest
      (some t.refresh_token :: r.1, r.2)
    | .resetToken t s1 =>
      let r := runCalls now s1 rest
      (some t.refresh_token :: r.1, r.2)
    | _ =>
      let r := runCalls now s rest
      (none :: r.1, r.2)
  | .markExhausted rk :: rest => runCalls now (markQuotaExhausted s rk) rest

/-- Credential used in the C3 counterexample: `timestamp` present but `0`
(falsy in JS), short-lived `expires_in`. -/
def c3Tok : TMToken :=
  { refresh_token := "r", timestamp := some 0, expires_in := some 301,
    hasQuota := true, projectId := some "p" }

/-- C3 counterexample: at `now = 0` the credential `c3Tok` (with
`timestamp = 0`, `expires_in = 301`) fails the claimed equivalence — the
code reports it expired because `0` is JS-falsy, while the claimed formula
`now ≥ timestamp + (expires_in − 300)·1000` is false (`0 < 1000`). -/
theorem c3_counterexample :
    ¬ (isExpired 0 c3Tok = true ↔
        (0 : Int) ≥ c3Tok.timestamp.getD 0 + (c3Tok.expires_in.getD 0 - 300) * 1000) := by
  decide

/-- C3 (amended): for every credential whose `timestamp` and `expires_in`
fields are present and nonzero, `isExpired` is `true` iff
`now ≥ timestamp + (expires_in − 300)·1000`; a credential with either field
missing or zero is always expired. -/
theorem c3_isExpired_iff (now ts ei : Int) (t : TMToken)
    (ht : t.timestamp = some ts) (hts : ts ≠ 0)
    (he : t.expires_in = some ei) (hei : ei ≠ 0) :
    isExpired now t = true ↔ now ≥ ts + (ei - 300) * 1000 := by
  have h1 : ts + ei * 1000 - 300000 = ts + (ei - 300) * 1000 := by ring
  simp [isExpired, jsFalsyNum, ht, he, hts, hei, h1]

/-- Witness for C3: the amended theorem applied to a concrete fresh
credential at `now = 0`. -/
theorem c3_isExpired_iff_witness :
    isExpired 0 { refresh_token := "r", timestamp := some 1, expires_in := some 301,
                  hasQuota := true, projectId := some "p" } = true ↔
      (0 : Int) ≥ 1 + (301 - 300) * 1000 :=
  c3_isExpired_iff 0 1 301 _ rfl (by decide) rfl (by decide)

/-- Credential 0 of the C2 scenario (has quota, fresh, has a project id). -/
def c2Tok0 : TMToken :=
  { refresh_token := "r0", timestamp := some 1, expires_in := some 100000,
    hasQuota := true, projectId := some "p" }

/-- Credential 1 of the C2 scenario (`hasQuota = false`). -/
def c2Tok1 : TMToken :=
  { refresh_token := "r1", timestamp := some 1, expires_in := some 100000,
    hasQuota := false, projectId := some "p" }

/-- Credential 2 of the C2 scenario (has quota). -/
def c2Tok2 : TMToken :=
  { refresh_token := "r2", timestamp := some 1, expires_in := some 100000,
    hasQuota := true, projectId := some "p" }

/-- Initial manager state of the C2 scenario: three credentials, middle one
without quota, `quota_exhausted` strategy. -/
def c2State : TMState :=
  { tokens := [c2Tok0, c2Tok1, c2Tok2], currentIndex := 0,
    rotationStrategy := .quota_exhausted, requestCountPerToken := 50,
    tokenRequestCounts := [] }

/-- Call script of the C2 scenario. -/
def c2Calls : List TMCall :=
  [.get, .get, .markExhausted "r0", .get, .markExhausted "r2", .get]

/-- C2 counterexample: running the claimed call script does NOT return
`c0, c2, c2, c0` — under `quota_exhausted`, `shouldRotate` is false for a
credential that still has quota, so the second `getToken()` returns `c0`
again, not `c2`. -/
theorem c2_counterexample :
    (runCalls 0 c2State c2Calls).1 ≠
      [some "r0", some "r2", some "r2", some "r0"] := by
  decide

/-- C2 (amended): the script returns `c0, c0, c2`, and finally — after the
all-skipped reset sets every `hasQuota` back to `true` — `c0`. -/
theorem c2_amended :
    (runCalls 0 c2State c2Calls).1 = [some "r0", some "r0", some "r2", some "r0"] ∧
    (runCalls 0 c2State c2Calls).2.tokens.all (fun t => t.hasQuota) = true := by
  decide

/-- Helper for C8: the scan loop only commits (`GetTokenRes.token`) a
credential that is not expired at the time of the scan — an expired
candidate always diverts to the OAuth refresh. -/
theorem getTokenLoop_token_not_expired (now : Int) (st total : Nat) :
    ∀ (fuel i : Nat) (s : TMState) (t : TMToken) (s1 : TMState),
      getTokenLoop now st total fuel i s = .token t s1 → isExpired now t = false := by
  intro fuel
  induction fuel with
  | zero =>
    intro i s t s1 h
    simp only [getTokenLoop] at h
    split at h
    · split at h <;> simp_all
    · simp_all
  | succ n ih =>
    intro i s t s1 h
    simp only [getTokenLoop] at h
    split at h
    · simp_all
    · rename_i t' heq
      by_cases h1 : (s.rotationStrategy == .quota_exhausted && t'.hasQuota == false) = true
      · rw [if_pos h1] at h
        exact ih (i + 1) s t s1 h
      · rw [if_neg h1] at h
        by_cases h2 : isExpired now t' = true
        · rw [if_pos h2] at h
          simp at h
        · rw [if_neg h2] at h
          by_cases h3 : t'.projectId.isNone = true
          · rw [if_pos h3] at h
            simp at h
          · rw [if_neg h3] at h
            injection h with h4 h5
            rw [← h4]
            simpa using h2

/-- Credential of the C8 counterexample: no `timestamp`, no `expires_in`, no
quota. -/
def c8Tok : TMToken :=
  { refresh_token := "r0", timestamp := none, expires_in := none,
    hasQuota := false, projectId := some "p" }

/-- Manager state of the C8 counterexample: a single quota-exhausted,
field-less credential under the `quota_exhausted` strategy. -/
def c8State : TMState :=
  { tokens := [c8Tok], currentIndex := 0,
    rotationStrategy := .quota_exhausted, requestCountPerToken := 50,
    tokenRequestCounts := [] }

/-- C8 counterexample: `c8Tok` lacks both freshness fields, so `isExpired`
is `true`; yet `getToken` returns it (through the `quota_exhausted`
all-skipped reset branch) without any OAuth refresh attempt. -/
theorem c8_counterexample :
    isExpired 0 c8Tok = true ∧
    resId (getToken 0 c8State) = some "r0" ∧
    wasRefreshAttempt (getToken 0 c8State) = false := by
  decide

/-- C8 (amended): a credential with a missing/zero `timestamp` or
`expires_in` is always reported expired, and the scan loop never commits an
expired credential (it diverts to the OAuth refresh first) — but the
`quota_exhausted` reset branch, which is outside the scan loop, can still
return such a credential without a refresh (see `c8_counterexample`). -/
theorem c8_amended (now : Int) (t : TMToken) (s : TMState) (u : TMToken) (s1 : TMState)
    (hfalsy : (jsFalsyNum t.timestamp || jsFalsyNum t.expires_in) = true)
    (hres : getToken now s = .token u s1) :
    isExpired now t = true ∧ isExpired now u = false := by
  refine ⟨by simp [isExpired, hfalsy], ?_⟩
  unfold getToken at hres
  split_ifs at hres with h0
  exact getTokenLoop_token_not_expired now s.currentIndex s.tokens.length
    s.tokens.length 0 s u s1 hres

/-- Credential used in the C8 witness loop state (fresh and usable). -/
def c8LoopTok : TMToken :=
  { refresh_token := "w", timestamp := some 1, expires_in := some 100000,
    hasQuota := true, projectId := some "p" }

/-- Manager state of the C8 witness: one fresh credential, `round_robin`. -/
def c8LoopState : TMState :=
  { tokens := [c8LoopTok], currentIndex := 0,
    rotationStrategy := .round_robin, requestCountPerToken := 50,
    tokenRequestCounts := [] }

/-- Witness for C8: the amended theorem applied to the field-less `c8Tok`
and a concrete successful `getToken` run returning `c8LoopTok`. -/
theorem c8_amended_witness :
    isExpired 0 c8Tok = true ∧ isExpired 0 c8LoopTok = false :=
  c8_amended 0 c8Tok c8LoopState c8LoopTok c8LoopState (by decide) (by decide)

/-- JS `String.prototype.startsWith`, computed on the character list (the
embedded code only applies it to ASCII literals, where JS code units and
characters coincide). -/
def strStartsWith (s p : String) : Bool := p.data.isPrefixOf s.data

/-- JS `String.prototype.slice(n)` (drop the first `n` code units), computed
on the character list. -/
def strDrop (s : String) (n : Nat) : String := ⟨s.data.drop n⟩

/-- Containment of `pat` in some position of the character list `l`. -/
def charListContains (pat : List Char) : List Char → Bool
  | [] => pat.isPrefixOf []
  | c :: rest => pat.isPrefixOf (c :: rest) || charListContains pat rest

/-- JS `String.prototype.includes`, computed on the character list. -/
def strContains (s pat : String) : Bool := charListContains pat.data s.data

/-- Inbound HTTP request as the API-key middleware sees it: the route path
and the two headers it reads. -/
structure HttpReq where
  path : String
  authorization : Option String
  xApiKey : Option String
deriving Repr, DecidableEq

/-- Outcome of the middleware: fall through to the route (`next`) or reply
HTTP 401 with the given JSON error string. -/
inductive MWResult where
  | next
  | unauthorized (body : String)
deriving Repr, DecidableEq

/-- Key extraction of the middleware: `authorization || x-api-key`, then
strip a `Bearer ` prefix if present (`none` when neither header is set). -/
def providedKeyOf (req : HttpReq) : Option String :=
  match jsOrStr req.authorization req.xApiKey with
  | some h => some (if strStartsWith h "Bearer " then strDrop h 7 else h)
  | none => none

/-- API-key middleware of the gateway frontend: only paths starting with
`/v1/` are examined; when an API key is configured (truthy) and the provided
key differs, reply 401 `Invalid API Key`, otherwise continue. -/
def apiKeyMiddleware (apiKey : Option String) (req : HttpReq) : MWResult :=
  if strStartsWith req.path "/v1/" then
    if jsFalsyStr apiKey then .next
    else if providedKeyOf req != apiKey then .unauthorized "Invalid API Key"
    else .next
  else .next

/-- C1 counterexample: with an API key configured, a `/v1beta/models`
request presenting no key at all falls through to the route instead of being
rejected — the middleware only guards paths starting with `/v1/`, and
`"/v1beta/…"` does not. -/
theorem c1_counterexample :
    apiKeyMiddleware (some "secret")
      { path := "/v1beta/models", authorization := none, xApiKey := none } =
      MWResult.next := by
  decide

/-- C1 (amended): when a nonempty API key is configured, a request whose
path starts with `/v1/` and whose extracted key (`authorization` header with
an optional `Bearer ` prefix stripped, else `x-api-key`) differs from the
configured key is rejected with 401 `Invalid API Key`; `/v1beta/*` paths are
not guarded at all. -/
theorem c1_amended (k : String) (req : HttpReq)
    (hk : k ≠ "") (hpath : strStartsWith req.path "/v1/" = true)
    (hkey : providedKeyOf req ≠ some k) :
    apiKeyMiddleware (some k) req = .unauthorized "Invalid API Key" := by
  simp [apiKeyMiddleware, jsFalsyStr, hpath, hk, hkey]

/-- Witness for C1: the amended theorem applied to a keyless `/v1/models`
request against the configured key `secret`. -/
theorem c1_amended_witness :
    apiKeyMiddleware (some "secret")
      { path := "/v1/models", authorization := none, xApiKey := none } =
      MWResult.unauthorized "Invalid API Key" :=
  c1_amended "secret" _ (by decide) (by decide) (by decide)

/-- Normalized generation parameters of `parameterNormalizer.js`: the single
internal shape produced by the three dialect normalizers
(`thinking_budget = none` models the JS `undefined`). -/
structure NormalizedParams where
  max_tokens : Int
  temperature : Int
  top_p : Int
  top_k : Int
  thinking_budget : Option Int
deriving Repr, DecidableEq

/-- Upstream `thinkingConfig` object. -/
structure ThinkingConfig where
  includeThoughts : Bool
  thinkingBudget : Int
deriving Repr, DecidableEq

/-- Upstream `generationConfig` object (`topP = none` models the field being
deleted). -/
structure GenerationConfig where
  topP : Option Int
  topK : Int
  temperature : Int
  candidateCount : Nat
  maxOutputTokens : Int
  thinkingConfig : ThinkingConfig
deriving Repr, DecidableEq

/-- Projection of `parameterNormalizer.js` (`toGenerationConfig`): compute
the effective thinking budget and enable flag, assemble the upstream
`generationConfig`, and delete `topP` when thinking is effectively enabled
and the model id contains `claude`.  `defaultThinkingBudget` stands for
`config.defaults.thinking_budget ?? 1024`. -/
def toGenerationConfig (defaultThinkingBudget : Int) (normalized : NormalizedParams)
    (enableThinking : Bool) (actualModelName : String) : GenerationConfig :=
  let tbEnable : Int × Bool :=
    if enableThinking then
      match normalized.thinking_budget with
      | some tb => (tb, tb != 0)
      | none => (defaultThinkingBudget, true)
    else ((0 : Int), false)
  let generationConfig : GenerationConfig :=
    { topP := some normalized.top_p
      topK := normalized.top_k
      temperature := normalized.temperature
      candidateCount := 1
      maxOutputTokens := normalized.max_tokens
      thinkingConfig := { includeThoughts := tbEnable.2, thinkingBudget := tbEnable.1 } }
  if tbEnable.2 && strContains actualModelName "claude" then
    { generationConfig with topP := none }
  else generationConfig

/-- Normalized parameters of the C4 counterexample (no explicit thinking
budget). -/
def c4Norm : NormalizedParams :=
  { max_tokens := 100, temperature := 1, top_p := 2, top_k := 3, thinking_budget := none }

/-- C4 counterexample: for a thinking-enabled `claude` model the projected
`generationConfig` does NOT carry the normalized `top_p` — the projection
deletes `topP` entirely. -/
theorem c4_counterexample :
    (toGenerationConfig 1024 c4Norm true "claude-x").topP ≠ some c4Norm.top_p := by
  decide

/-- C4 (amended): projecting normalized parameters yields
`maxOutputTokens`, `temperature` and `topK` equal to the normalized values,
and `thinkingConfig.includeThoughts = false` iff the normalized
`thinking_budget` is `0` or thinking is unsupported for the model
(`enableThinking = false`); `topP` equals the normalized `top_p` EXCEPT that
it is omitted exactly when thinking is effectively enabled and the model id
contains `claude`. -/
theorem c4_amended (dtb : Int) (n : NormalizedParams) (enableThinking : Bool) (model : String) :
    (toGenerationConfig dtb n enableThinking model).maxOutputTokens = n.max_tokens ∧
    (toGenerationConfig dtb n enableThinking model).temperature = n.temperature ∧
    (toGenerationConfig dtb n enableThinking model).topK = n.top_k ∧
    ((toGenerationConfig dtb n enableThinking model).thinkingConfig.includeThoughts = false ↔
      (n.thinking_budget = some 0 ∨ enableThinking = false)) ∧
    ((toGenerationConfig dtb n enableThinking model).topP = none ∨
      (toGenerationConfig dtb n enableThinking model).topP = some n.top_p) ∧
    ((toGenerationConfig dtb n enableThinking model).topP = none ↔
      ((toGenerationConfig dtb n enableThinking model).thinkingConfig.includeThoughts = true ∧
        strContains model "claude" = true)) := by
  unfold toGenerationConfig
  cases enableThinking with
  | false => by_cases hc : strContains model "claude" = true <;> simp [hc]
  | true =>
    rcases hn : n.thinking_budget with _ | tb
    · by_cases hc : strContains model "claude" = true <;> simp [hn, hc]
    · by_cases hc : strContains model "claude" = true <;>
        by_cases htb : tb = (0 : Int) <;>
          simp [hn, hc, htb]

/-- Memory-pressure tiers of `memoryManager.js`. -/
inductive MemoryPressure where
  | low
  | medium
  | high
  | critical
deriving Repr, DecidableEq

/-- Cached quota record of `quota_manager.js`: refresh time plus an opaque
per-model snapshot (its inner structure is irrelevant to the claims). -/
structure QuotaRec where
  lastUpdated : Int
  models : List (String × String)
deriving Repr, DecidableEq

/-- Quota cache of `quota_manager.js`: a map keyed by `refresh_token`,
modelled as a function (a JS `Map` has unique keys). -/
def QuotaCache := String → Option QuotaRec

/-- Read-validity TTL of the quota cache (5 minutes, `CACHE_TTL`). -/
def CACHE_TTL : Int := 5 * 60 * 1000

/-- Sweep-eviction TTL of the quota cache (1 hour, `CLEANUP_INTERVAL`). -/
def CLEANUP_INTERVAL : Int := 60 * 60 * 1000

/-- Write one quota snapshot (`updateQuota`): stamp `lastUpdated = now`. -/
def updateQuota (now : Int) (c : QuotaCache) (rk : String) (models : List (String × String)) :
    QuotaCache :=
  fun k => if k == rk then some { lastUpdated := now, models := models } else c k

/-- Read of `quota_manager.js` (`getQuota`): `none` when the record is
missing or older than `CACHE_TTL`; the cache itself is returned unchanged in
every branch (the read never deletes). -/
def getQuota (now : Int) (c : QuotaCache) (rk : String) : Option QuotaRec × QuotaCache :=
  match c rk with
  | none => (none, c)
  | some data => if now - data.lastUpdated > CACHE_TTL then (none, c) else (some data, c)

/-- Hourly sweep of `quota_manager.js` (`cleanup`): drop every record older
than `CLEANUP_INTERVAL`. -/
def cleanup (now : Int) (c : QuotaCache) : QuotaCache :=
  fun k =>
    match c k with
    | some v => if now - v.lastUpdated > CLEANUP_INTERVAL then none else some v
    | none => none

/-- Memory-pressure callback registered by `quota_manager.js`: on `critical`
clear the whole map, on `high` run the sweep, otherwise do nothing. -/
def quotaMemoryCleanup (now : Int) (p : MemoryPressure) (c : QuotaCache) : QuotaCache :=
  match p with
  | .critical => fun _ => none
  | .high => cleanup now c
  | _ => c

/-- C9: a stale read (record older than 5 minutes) returns `null` but leaves
the cache untouched; the record itself is removed only by the sweep — and
only when it is older than 1 hour — or by the `critical` memory-pressure
clear. -/
theorem c9_stale_read_frame (now : Int) (c : QuotaCache) (rk : String) (q : QuotaRec)
    (hlook : c rk = some q) (hstale : now - q.lastUpdated > CACHE_TTL) :
    getQuota now c rk = (none, c) ∧
    cleanup now c rk = (if now - q.lastUpdated > CLEANUP_INTERVAL then none else some q) ∧
    quotaMemoryCleanup now MemoryPressure.critical c rk = none := by
  refine ⟨?_, ?_, rfl⟩
  · simp [getQuota, hlook, hstale]
  · simp [cleanup, hlook]

/-- Concrete cache for the C9 witness: a single record refreshed at time 0. -/
def c9WitnessCache : QuotaCache :=
  fun k => if k == "rk" then some { lastUpdated := 0, models := [] } else none

/-- Witness for C9: the theorem applied at `now = 400000` (6⅔ minutes after
the record's refresh — past the 5-minute read TTL, within the 1-hour sweep
TTL). -/
theorem c9_stale_read_frame_witness :
    getQuota 400000 c9WitnessCache "rk" = (none, c9WitnessCache) ∧
    cleanup 400000 c9WitnessCache "rk" =
      (if (400000 : Int) - 0 > CLEANUP_INTERVAL then none else some { lastUpdated := 0, models := [] }) ∧
    quotaMemoryCleanup 400000 MemoryPressure.critical c9WitnessCache "rk" = none :=
  c9_stale_read_frame 400000 c9WitnessCache "rk" { lastUpdated := 0, models := [] }
    (by rfl) (by decide)

/-- Credential row as persisted in `accounts.json` (`sessionId = some _`
models the row carrying a `sessionId` key). -/
structure StoredTok where
  refresh_token : String
  sessionId : Option String
  access_token : String
  expires_in : Option Int
  timestamp : Option Int
  enable : Option Bool
  projectId : Option String
  email : Option String
  hasQuota : Option Bool
deriving Repr, DecidableEq

/-- Drop of the `sessionId` key performed by `saveToFile`
(`const { sessionId, ...tokenToSave } = token`). -/
def stripSessionId (t : StoredTok) : StoredTok := { t with sessionId := none }

/-- Replace the first row matching `tok.refresh_token` with the stripped
`tok` (mirrors `findIndex` + assignment in `saveToFile`); no match leaves
the file as it was. -/
def replaceFirstRow (tok : StoredTok) : List StoredTok → List StoredTok
  | [] => []
  | t :: ts =>
    if t.refresh_token == tok.refresh_token then stripSessionId tok :: ts
    else t :: replaceFirstRow tok ts

/-- File effect of `saveToFile(tokenToUpdate)` with a specific token. -/
def saveToFileOne (file : List StoredTok) (tok : StoredTok) : List StoredTok :=
  replaceFirstRow tok file

/-- File effect of `saveToFile()` with no argument: write back every
in-memory token over its row. -/
def saveToFileAll (file : List StoredTok) (mem : List StoredTok) : List StoredTok :=
  mem.foldl (fun acc tok => replaceFirstRow tok acc) file

/-- Patch object of the admin update route (`req.body` forwarded verbatim to
`updateToken`): `some` models the key being present in the JSON body. -/
structure TokPatch where
  refresh_token : Option String
  sessionId : Option String
  access_token : Option String
  expires_in : Option Int
  timestamp : Option Int
  enable : Option Bool
  projectId : Option String
  email : Option String
  hasQuota : Option Bool
deriving Repr, DecidableEq

/-- Key-wise JS object spread `{...row, ...patch}`: a key present in the
patch overrides the row's. -/
def patchField {α : Type} (p r : Option α) : Option α :=
  match p with
  | some v => some v
  | none => r

/-- Merged row of `updateToken`: `{ ...allTokens[index], ...updates }`. -/
def mergePatch (row : StoredTok) (p : TokPatch) : StoredTok :=
  { refresh_token := p.refresh_token.getD row.refresh_token
    sessionId := patchField p.sessionId row.sessionId
    access_token := p.access_token.getD row.access_token
    expires_in := patchField p.expires_in row.expires_in
    timestamp := patchField p.timestamp row.timestamp
    enable := patchField p.enable row.enable
    projectId := patchField p.projectId row.projectId
    email := patchField p.email row.email
    hasQuota := patchField p.hasQuota row.hasQuota }

/-- Replace the first row matching `rk` by `f` of it. -/
def updateFirst (rk : String) (f : StoredTok → StoredTok) : List StoredTok → List StoredTok
  | [] => []
  | t :: ts => if t.refresh_token == rk then f t :: ts else t :: updateFirst rk f ts

/-- File effect of `updateToken`: `none` models the `Token不存在` failure
(no write at all). -/
def updateTokenFile (file : List StoredTok) (rk : String) (p : TokPatch) :
    Option (List StoredTok) :=
  if file.any (fun t => t.refresh_token == rk) then
    some (updateFirst rk (fun row => mergePatch row p) file)
  else none

/-- File effect of `addToken`: append a freshly built row (only whitelisted
fields are copied from the input; `sessionId` never is). -/
def addTokenFile (now : Int) (file : List StoredTok) (d : TokPatch) : List StoredTok :=
  let newToken : StoredTok :=
    { refresh_token := d.refresh_token.getD ""
      sessionId := none
      access_token := d.access_token.getD ""
      expires_in := some (if jsFalsyNum d.expires_in then 3599 else d.expires_in.getD 0)
      timestamp := some (if jsFalsyNum d.timestamp then now else d.timestamp.getD 0)
      enable := some (d.enable.getD true)
      projectId := if jsFalsyStr d.projectId then none else d.projectId
      email := if jsFalsyStr d.email then none else d.email
      hasQuota := d.hasQuota }
  file ++ [newToken]

/-- File effect of `deleteToken`: `none` models the `Token不存在` failure
(no write). -/
def deleteTokenFile (file : List StoredTok) (rk : String) : Option (List StoredTok) :=
  let filtered := file.filter (fun t => t.refresh_token != rk)
  if filtered.length == file.length then none else some filtered

/-- Whether no row of the file carries a `sessionId` key. -/
def sessionFree (l : List StoredTok) : Bool := l.all fun t => t.sessionId.isNone

/-- Row of the C7 counterexample (no `sessionId`). -/
def c7Row : StoredTok :=
  { refresh_token := "r", sessionId := none, access_token := "a",
    expires_in := none, timestamp := none, enable := none,
    projectId := none, email := none, hasQuota := none }

/-- Patch of the C7 counterexample: an admin update body carrying a
`sessionId` key. -/
def c7Patch : TokPatch :=
  { refresh_token := none, sessionId := some "sess", access_token := none,
    expires_in := none, timestamp := none, enable := none,
    projectId := none, email := none, hasQuota := none }

/-- C7 counterexample: the admin update operation spreads its patch verbatim
into the stored row, so an update body carrying `sessionId` persists a
`sessionId` key into `accounts.json`. -/
theorem c7_counterexample :
    sessionFree ((updateTokenFile [c7Row] "r" c7Patch).getD []) = false := by
  decide

/-- Helper for C7: `saveToFile`'s row replacement keeps a `sessionId`-free
file `sessionId`-free (the written row is stripped). -/
theorem sessionFree_replaceFirstRow (tok : StoredTok) :
    ∀ file : List StoredTok, sessionFree file = true →
      sessionFree (replaceFirstRow tok file) = true := by
  intro file
  induction file with
  | nil => intro _; rfl
  | cons t ts ih =>
    intro h
    simp only [sessionFree, List.all_cons, Bool.and_eq_true] at h
    simp only [replaceFirstRow]
    split
    · simp only [sessionFree, List.all_cons, Bool.and_eq_true]
      exact ⟨by simp [stripSessionId], h.2⟩
    · simp only [sessionFree, List.all_cons, Bool.and_eq_true]
      exact ⟨h.1, ih h.2⟩

/-- Helper for C7: folding row replacements over the in-memory list keeps
the file `sessionId`-free. -/
theorem sessionFree_saveToFileAll (mem : List StoredTok) :
    ∀ file : List StoredTok, sessionFree file = true →
      sessionFree (saveToFileAll file mem) = true := by
  induction mem with
  | nil => intro file h; exact h
  | cons m ms ih =>
    intro file h
    exact ih (replaceFirstRow m file) (sessionFree_replaceFirstRow m file h)

/-- Helper for C7: replacing one row by a `sessionId`-preserving function
keeps the file `sessionId`-free. -/
theorem sessionFree_updateFirst (rk : String) (f : StoredTok → StoredTok)
    (hf : ∀ t : StoredTok, t.sessionId.isNone = true → (f t).sessionId.isNone = true) :
    ∀ file : List StoredTok, sessionFree file = true →
      sessionFree (updateFirst rk f file) = true := by
  intro file
  induction file with
  | nil => intro _; rfl
  | cons t ts ih =>
    intro h
    simp only [sessionFree, List.all_cons, Bool.and_eq_true] at h
    simp only [updateFirst]
    split
    · simp only [sessionFree, List.all_cons, Bool.and_eq_true]
      exact ⟨hf t h.1, h.2⟩
    · simp only [sessionFree, List.all_cons, Bool.and_eq_true]
      exact ⟨h.1, ih h.2⟩

/-- Helper for C7: filtering keeps the file `sessionId`-free. -/
theorem sessionFree_filter (pred : StoredTok → Bool) (file : List StoredTok)
    (h : sessionFree file = true) : sessionFree (file.filter pred) = true := by
  rw [sessionFree, List.all_eq_true] at h ⊢
  intro t ht
  exact h t (List.mem_filter.mp ht).1

/-- C7 (amended): starting from a `sessionId`-free `accounts.json`, every
persistence path — refresh persist / quota marking / disable
(`saveToFileOne`, `saveToFileAll`), admin add, admin delete — writes a file
with no `sessionId` key in any row, and the admin update does too PROVIDED
its patch body carries no `sessionId` key; a patch carrying one is persisted
verbatim (see `c7_counterexample`). -/
theorem c7_amended (now : Int) (file mem : List StoredTok) (tok : StoredTok)
    (rk : String) (p : TokPatch) (d : TokPatch)
    (hfile : sessionFree file = true) (hp : p.sessionId = none) :
    sessionFree (saveToFileOne file tok) = true ∧
    sessionFree (saveToFileAll file mem) = true ∧
    sessionFree (addTokenFile now file d) = true ∧
    sessionFree ((updateTokenFile file rk p).getD []) = true ∧
    sessionFree ((deleteTokenFile file rk).getD []) = true := by
  refine ⟨sessionFree_replaceFirstRow tok file hfile,
          sessionFree_saveToFileAll mem file hfile, ?_, ?_, ?_⟩
  · simp only [addTokenFile, sessionFree, List.all_append, List.all_cons, List.all_nil,
      Bool.and_eq_true]
    exact ⟨hfile, by simp, by simp⟩
  · rw [updateTokenFile]
    split
    · simp only [Option.getD_some]
      exact sessionFree_updateFirst rk _
        (fun t ht => by simpa [mergePatch, patchField, hp] using ht) file hfile
    · rfl
  · rw [deleteTokenFile]
    split
    · rfl
    · simp only [Option.getD_some]
      exact sessionFree_filter _ file hfile

/-- Witness for C7: the amended theorem applied to a one-row file, a
`sessionId`-carrying in-memory token, and a `sessionId`-free patch. -/
theorem c7_amended_witness :
    sessionFree (saveToFileOne [c7Row] { c7Row with sessionId := some "live" }) = true ∧
    sessionFree (saveToFileAll [c7Row] [{ c7Row with sessionId := some "live" }]) = true ∧
    sessionFree (addTokenFile 0 [c7Row] { c7Patch with sessionId := none }) = true ∧
    sessionFree ((updateTokenFile [c7Row] "r" { c7Patch with sessionId := none }).getD []) = true ∧
    sessionFree ((deleteTokenFile [c7Row] "r").getD []) = true :=
  c7_amended 0 [c7Row] [{ c7Row with sessionId := some "live" }]
    { c7Row with sessionId := some "live" } "r" { c7Patch with sessionId := none }
    { c7Patch with sessionId := none } (by decide) (by decide)

/-- Gemini `functionCall` part payload (only the `id` matters here). -/
structure FunctionCall where
  id : Option String
deriving Repr, DecidableEq

/-- Gemini `functionResponse` part payload. -/
structure FunctionResponse where
  id : Option String
deriving Repr, DecidableEq

/-- Message part of a Gemini history (either, both or neither field may be
present, as in the JS objects). -/
structure GemPart where
  functionCall : Option FunctionCall
  functionResponse : Option FunctionResponse
deriving Repr, DecidableEq

/-- Message of a Gemini history (`parts = none` models a missing or
non-array `parts` field). -/
structure GemContent where
  role : String
  parts : Option (List GemPart)
deriving Repr, DecidableEq

/-- First pass of `processFunctionCallIds` over one `model` message's parts:
give every `functionCall` without an id a fresh one (`gen` applied to a
running counter `n`) and collect all call ids in order onto `acc`. -/
def assignCallIdsParts (gen : Nat → String) :
    List GemPart → Nat → List String → List GemPart × Nat × List String
  | [], n, acc => ([], n, acc)
  | p :: ps, n, acc =>
    match p.functionCall with
    | some fc =>
      let fcN : FunctionCall × Nat :=
        match fc.id with
        | some _ => (fc, n)
        | none => ({ fc with id := some (gen n) }, n + 1)
      let newId := fcN.1.id.getD ""
      let r := assignCallIdsParts gen ps fcN.2 (acc ++ [newId])
      ({ p with functionCall := some fcN.1 } :: r.1, r.2)
    | none =>
      let r := assignCallIdsParts gen ps n acc
      (p :: r.1, r.2)

/-- First pass of `processFunctionCallIds` over the whole history: only
messages with `role === 'model'` and an array `parts` are visited. -/
def assignCallIds (gen : Nat → String) :
    List GemContent → Nat → List String → List GemContent × Nat × List String
  | [], n, acc => ([], n, acc)
  | c :: cs, n, acc =>
    match c.parts with
    | some ps =>
      if c.role == "model" then
        let rp := assignCallIdsParts gen ps n acc
        let rc := assignCallIds gen cs rp.2.1 rp.2.2
        ({ c with parts := some rp.1 } :: rc.1, rc.2)
      else
        let rc := assignCallIds gen cs n acc
        (c :: rc.1, rc.2)
    | none =>
      let rc := assignCallIds gen cs n acc
      (c :: rc.1, rc.2)

/-- Second pass over one `user` message's parts: every `functionResponse`
without an id receives `ids[j]` — when that index exists — and the cursor
`j` advances; responses that already carry an id are left alone and consume
nothing. -/
def assignRespIdsParts (ids : List String) :
    List GemPart → Nat → List GemPart × Nat
  | [], j => ([], j)
  | p :: ps, j =>
    match p.functionResponse with
    | some fr =>
      match fr.id, ids[j]? with
      | none, some v =>
        let r := assignRespIdsParts ids ps (j + 1)
        ({ p with functionResponse := some { fr with id := some v } } :: r.1, r.2)
      | _, _ =>
        let r := assignRespIdsParts ids ps j
        (p :: r.1, r.2)
    | none =>
      let r := assignRespIdsParts ids ps j
      (p :: r.1, r.2)

/-- Second pass over the whole history: only `role === 'user'` messages with
an array `parts` are visited. -/
def assignRespIds (ids : List String) :
    List GemContent → Nat → List GemContent × Nat
  | [], j => ([], j)
  | c :: cs, j =>
    match c.parts with
    | some ps =>
      if c.role == "user" then
        let rp := assignRespIdsParts ids ps j
        let rc := assignRespIds ids cs rp.2
        ({ c with parts := some rp.1 } :: rc.1, rc.2)
      else
        let rc := assignRespIds ids cs j
        (c :: rc.1, rc.2)
    | none =>
      let rc := assignRespIds ids cs j
      (c :: rc.1, rc.2)

/-- ID threading of `converters/gemini.js` (`processFunctionCallIds`):
collect / mint the call ids, then distribute them over id-less responses. -/
def processFunctionCallIds (gen : Nat → String) (contents : List GemContent) :
    List GemContent :=
  let r1 := assignCallIds gen contents 0 []
  (assignRespIds r1.2.2 r1.1 0).1

/-- Call ids of a part list, in order. -/
def partCallIds : List GemPart → List (Option String)
  | [] => []
  | p :: ps =>
    match p.functionCall with
    | some fc => fc.id :: partCallIds ps
    | none => partCallIds ps

/-- Response ids of a part list, in order. -/
def partRespIds : List GemPart → List (Option String)
  | [] => []
  | p :: ps =>
    match p.functionResponse with
    | some fr => fr.id :: partRespIds ps
    | none => partRespIds ps

/-- Call ids carried by `model` messages of a history, in document order. -/
def modelCallIds : List GemContent → List (Option String)
  | [] => []
  | c :: cs =>
    (if c.role == "model" then
      match c.parts with
      | some ps => partCallIds ps
      | none => []
    else []) ++ modelCallIds cs

/-- Response ids carried by `user` messages of a history, in document
order. -/
def userRespIds : List GemContent → List (Option String)
  | [] => []
  | c :: cs =>
    (if c.role == "user" then
      match c.parts with
      | some ps => partRespIds ps
      | none => []
    else []) ++ userRespIds cs

/-- Part carrying only a `functionCall` with the given id. -/
def callPart (i : Option String) : GemPart :=
  { functionCall := some { id := i }, functionResponse := none }

/-- Part carrying only a `functionResponse` with the given id. -/
def respPart (i : Option String) : GemPart :=
  { functionCall := none, functionResponse := some { id := i } }

/-- History of the C6 counterexample: two calls with ids `a`, `b`, then a
response already carrying id `b` followed by an id-less response. -/
def c6Contents : List GemContent :=
  [ { role := "model", parts := some [callPart (some "a"), callPart (some "b")] },
    { role := "user", parts := some [respPart (some "b"), respPart none] } ]

/-- C6 counterexample: a response that already carries an id consumes no
collected id, so the id-less second response receives the FIRST call id and
the claimed position-wise matching fails (`[b, a]` vs `[a, b]`). -/
theorem c6_counterexample :
    userRespIds (processFunctionCallIds (fun _ => "g") c6Contents) ≠
      modelCallIds (processFunctionCallIds (fun _ => "g") c6Contents) := by
  decide

/-- List indexing read off the dropped suffix. -/
theorem getIdx_eq_head_drop : ∀ (l : List String) (j : Nat), l[j]? = (l.drop j).head? := by
  intro l
  induction l with
  | nil => intro j; cases j <;> simp
  | cons a as ih =>
    intro j
    cases j with
    | zero => simp
    | succ m =>
      rw [List.getElem?_cons_succ, List.drop_succ_cons]
      exact ih m

/-- Dropping one more element takes the tail of the dropped suffix. -/
theorem drop_succ_eq : ∀ (l : List String) (j : Nat), l.drop (j + 1) = (l.drop j).tail := by
  intro l
  induction l with
  | nil => intro j; simp
  | cons a as ih =>
    intro j
    cases j with
    | zero => simp
    | succ m =>
      rw [List.drop_succ_cons, List.drop_succ_cons]
      exact ih m


/-- Specification of the first pass over one part list: the accumulator
grows by the (now all-present) call ids of the rewritten parts, response
parts are untouched, and one id is collected per call part. -/
theorem assignCallIdsParts_spec (gen : Nat → String) :
    ∀ (ps : List GemPart) (n : Nat) (acc : List String),
      ∃ newIds : List String,
        (assignCallIdsParts gen ps n acc).2.2 = acc ++ newIds ∧
        partCallIds (assignCallIdsParts gen ps n acc).1 = newIds.map some ∧
        partRespIds (assignCallIdsParts gen ps n acc).1 = partRespIds ps ∧
        newIds.length = (partCallIds ps).length := by
  intro ps
  induction ps with
  | nil =>
    intro n acc
    exact ⟨[], by simp [assignCallIdsParts], by simp [assignCallIdsParts, partCallIds],
      by simp [assignCallIdsParts, partRespIds], by simp [partCallIds]⟩
  | cons p ps ih =>
    intro n acc
    rcases hfc : p.functionCall with _ | fc
    · obtain ⟨tl, h1, h2, h3, h4⟩ := ih n acc
      refine ⟨tl, ?_, ?_, ?_, ?_⟩
      · simpa only [assignCallIdsParts, hfc] using h1
      · simpa only [assignCallIdsParts, hfc, partCallIds] using h2
      · simp only [assignCallIdsParts, hfc, partRespIds]
        cases hfr : p.functionResponse <;> simp [hfr, h3]
      · simpa only [partCallIds, hfc] using h4
    · rcases hid : fc.id with _ | v
      · obtain ⟨tl, h1, h2, h3, h4⟩ := ih (n + 1) (acc ++ [gen n])
        refine ⟨gen n :: tl, ?_, ?_, ?_, ?_⟩
        · simp only [assignCallIdsParts, hfc, hid, Option.getD_some]
          rw [h1]
          simp
        · simp only [assignCallIdsParts, hfc, hid, Option.getD_some, partCallIds]
          rw [h2]
          simp
        · simp only [assignCallIdsParts, hfc, hid, Option.getD_some, partRespIds]
          cases hfr : p.functionResponse <;> simp [hfr, h3]
        · simp only [partCallIds, hfc, List.length_cons]
          rw [h4]
      · obtain ⟨tl, h1, h2, h3, h4⟩ := ih n (acc ++ [v])
        refine ⟨v :: tl, ?_, ?_, ?_, ?_⟩
        · simp only [assignCallIdsParts, hfc, hid, Option.getD_some]
          rw [h1]
          simp
        · simp only [assignCallIdsParts, hfc, hid, Option.getD_some, partCallIds]
          rw [h2]
          simp [hid]
        · simp only [assignCallIdsParts, hfc, hid, Option.getD_some, partRespIds]
          cases hfr : p.functionResponse <;> simp [hfr, h3]
        · simp only [partCallIds, hfc, List.length_cons]
          rw [h4]

/-- Specification of the first pass over the whole history: it returns the
collected call ids, the rewritten `model` messages carry exactly those ids,
and `user`-message response ids are untouched. -/
theorem assignCallIds_spec (gen : Nat → String) :
    ∀ (cs : List GemContent) (n : Nat) (acc : List String),
      ∃ newIds : List String,
        (assignCallIds gen cs n acc).2.2 = acc ++ newIds ∧
        modelCallIds (assignCallIds gen cs n acc).1 = newIds.map some ∧
        userRespIds (assignCallIds gen cs n acc).1 = userRespIds cs ∧
        newIds.length = (modelCallIds cs).length := by
  intro cs
  induction cs with
  | nil =>
    intro n acc
    exact ⟨[], by simp [assignCallIds], by simp [assignCallIds, modelCallIds],
      by simp [assignCallIds, userRespIds], by simp [modelCallIds]⟩
  | cons c cs ih =>
    intro n acc
    rcases hps : c.parts with _ | ps
    · obtain ⟨tl, h1, h2, h3, h4⟩ := ih n acc
      refine ⟨tl, ?_, ?_, ?_, ?_⟩
      · simpa only [assignCallIds, hps] using h1
      · simp [assignCallIds, modelCallIds, hps, h2]
      · simp [assignCallIds, userRespIds, hps, h3]
      · simp [modelCallIds, hps, h4]
    · by_cases hrole : (c.role == "model") = true
      · have hroleEq : c.role = "model" := by simpa using hrole
        obtain ⟨tl1, p1, p2, p3, p4⟩ := assignCallIdsParts_spec gen ps n acc
        obtain ⟨tl2, q1, q2, q3, q4⟩ :=
          ih (assignCallIdsParts gen ps n acc).2.1 (assignCallIdsParts gen ps n acc).2.2
        refine ⟨tl1 ++ tl2, ?_, ?_, ?_, ?_⟩
        · simp only [assignCallIds, hps, hrole, if_pos]
          rw [q1, p1]
          simp
        · simp only [assignCallIds, hps, hrole, if_pos, modelCallIds, hroleEq]
          rw [q2, p2]
          simp
        · simp only [assignCallIds, hps, hrole, if_pos, userRespIds, hroleEq]
          rw [q3, p3]
        · simp only [modelCallIds, hps, hroleEq, List.length_append]
          rw [p4, q4]
          simp
      · obtain ⟨tl, h1, h2, h3, h4⟩ := ih n acc
        have hrole' : (c.role == "model") = false := by
          simpa using hrole
        refine ⟨tl, ?_, ?_, ?_, ?_⟩
        · simpa only [assignCallIds, hps, hrole'] using h1
        · simp [assignCallIds, modelCallIds, hps, hrole', h2]
        · simp [assignCallIds, userRespIds, hps, hrole', h3]
        · simp [modelCallIds, hrole', h4]

/-- Specification of the second pass over one part list: when every response
id is absent and enough collected ids remain from cursor `j`, the rewritten
responses carry exactly the next ids in order, the cursor advances by the
number of responses, and call parts are untouched. -/
theorem assignRespIdsParts_spec (ids : List String) :
    ∀ (ps : List GemPart) (j : Nat),
      (∀ o ∈ partRespIds ps, o = none) →
      (partRespIds ps).length ≤ (ids.drop j).length →
      partRespIds (assignRespIdsParts ids ps j).1
          = ((ids.drop j).take (partRespIds ps).length).map some ∧
      (assignRespIdsParts ids ps j).2 = j + (partRespIds ps).length ∧
      partCallIds (assignRespIdsParts ids ps j).1 = partCallIds ps := by
  intro ps
  induction ps with
  | nil =>
    intro j _ _
    refine ⟨?_, ?_, ?_⟩ <;> simp [assignRespIdsParts, partRespIds, partCallIds]
  | cons p ps ih =>
    intro j hnone hlen
    rcases hfr : p.functionResponse with _ | fr
    · have hnone' : ∀ o ∈ partRespIds ps, o = none := by
        simpa only [partRespIds, hfr] using hnone
      have hlen' : (partRespIds ps).length ≤ (ids.drop j).length := by
        simpa only [partRespIds, hfr] using hlen
      obtain ⟨g1, g2, g3⟩ := ih j hnone' hlen'
      refine ⟨?_, ?_, ?_⟩
      · simpa only [assignRespIdsParts, hfr, partRespIds] using g1
      · simpa only [assignRespIdsParts, hfr, partRespIds] using g2
      · simp only [assignRespIdsParts, hfr, partCallIds]
        cases hfcp : p.functionCall <;> simp [hfcp, g3]
    · have hfrid : fr.id = none := by
        refine hnone fr.id ?_
        simp [partRespIds, hfr]
      have hlen1 : (partRespIds ps).length + 1 ≤ (ids.drop j).length := by
        simpa only [partRespIds, hfr, List.length_cons] using hlen
      cases hdj : ids.drop j with
      | nil =>
        rw [hdj] at hlen1
        simp at hlen1
      | cons v rest =>
        have hidx : ids[j]? = some v := by
          rw [getIdx_eq_head_drop, hdj]
          rfl
        have hdj1 : ids.drop (j + 1) = rest := by
          rw [drop_succ_eq, hdj]
          rfl
        have hnone' : ∀ o ∈ partRespIds ps, o = none := by
          intro o ho
        
          refine hnone o ?_
          have heq : partRespIds (p :: ps) = fr.id :: partRespIds ps := by
            simp [partRespIds, hfr]
          rw [heq]
          exact List.mem_cons_of_mem _ ho
        have hlen' : (partRespIds ps).length ≤ (ids.drop (j + 1)).length := by
          rw [hdj1]
          rw [hdj] at hlen1
          simpa using hlen1
        obtain ⟨g1, g2, g3⟩ := ih (j + 1) hnone' hlen'
        refine ⟨?_, ?_, ?_⟩
        · simp only [assignRespIdsParts, hfr, hfrid, hidx, partRespIds]
          rw [g1, hdj1]
          simp
        · simp only [assignRespIdsParts, hfr, hfrid, hidx]
          rw [g2]
          simp only [partRespIds, hfr, List.length_cons]
          omega
        · simp only [assignRespIdsParts, hfr, hfrid, hidx, partCallIds]
          cases hfcp : p.functionCall <;> simp [hfcp, g3]

/-- Specification of the second pass over the whole history: with all
response ids absent and enough collected ids from the cursor on, the
rewritten `user` messages carry exactly the next collected ids in order and
`model`-message call ids are untouched. -/
theorem assignRespIds_spec (ids : List String) :
    ∀ (cs : List GemContent) (j : Nat),
      (∀ o ∈ userRespIds cs, o = none) →
      (userRespIds cs).length ≤ (ids.drop j).length →
      userRespIds (assignRespIds ids cs j).1
          = ((ids.drop j).take (userRespIds cs).length).map some ∧
      (assignRespIds ids cs j).2 = j + (userRespIds cs).length ∧
      modelCallIds (assignRespIds ids cs j).1 = modelCallIds cs := by
  intro cs
  induction cs with
  | nil =>
    intro j _ _
    refine ⟨?_, ?_, ?_⟩ <;> simp [assignRespIds, userRespIds, modelCallIds]
  | cons c cs ih =>
    intro j hnone hlen
    rcases hps : c.parts with _ | ps
    · have hur : userRespIds (c :: cs) = userRespIds cs := by
        simp [userRespIds, hps]
      rw [hur] at hnone hlen
      obtain ⟨g1, g2, g3⟩ := ih j hnone hlen
      refine ⟨?_, ?_, ?_⟩
      · rw [show (assignRespIds ids (c :: cs) j).1
              = c :: (assignRespIds ids cs j).1 from by simp [assignRespIds, hps]]
        rw [show userRespIds (c :: (assignRespIds ids cs j).1)
              = userRespIds (assignRespIds ids cs j).1 from by simp [userRespIds, hps]]
        rw [hur, g1]
      · rw [show (assignRespIds ids (c :: cs) j).2
              = (assignRespIds ids cs j).2 from by simp [assignRespIds, hps]]
        rw [hur, g2]
      · rw [show (assignRespIds ids (c :: cs) j).1
              = c :: (assignRespIds ids cs j).1 from by simp [assignRespIds, hps]]
        simp only [modelCallIds, hps]
        rw [g3]
    · by_cases hrole : (c.role == "user") = true
      · have hroleEq : c.role = "user" := by simpa using hrole
        have hur : userRespIds (c :: cs) = partRespIds ps ++ userRespIds cs := by
          simp [userRespIds, hroleEq, hps]
        have hnone1 : ∀ o ∈ partRespIds ps, o = none := by
          intro o ho
          refine hnone o ?_
          rw [hur]
          exact List.mem_append_left _ ho
        have hnone2 : ∀ o ∈ userRespIds cs, o = none := by
          intro o ho
          refine hnone o ?_
          rw [hur]
          exact List.mem_append_right _ ho
        have hlen0 : (partRespIds ps).length + (userRespIds cs).length ≤ (ids.drop j).length := by
          rw [hur] at hlen
          simpa [List.length_append] using hlen
        have hlenp : (partRespIds ps).length ≤ (ids.drop j).length := by omega
        obtain ⟨a1, a2, a3⟩ := assignRespIdsParts_spec ids ps j hnone1 hlenp
        have hlen2 : (userRespIds cs).length
            ≤ (ids.drop (j + (partRespIds ps).length)).length := by
          rw [List.length_drop]
          rw [List.length_drop] at hlen0
          omega
        obtain ⟨b1, b2, b3⟩ := ih (j + (partRespIds ps).length) hnone2 hlen2
        have hsplit : (assignRespIds ids (c :: cs) j).1
            = { c with parts := some (assignRespIdsParts ids ps j).1 }
                :: (assignRespIds ids cs (assignRespIdsParts ids ps j).2).1 := by
          simp [assignRespIds, hps, hrole]
        have hsplit2 : (assignRespIds ids (c :: cs) j).2
            = (assignRespIds ids cs (assignRespIdsParts ids ps j).2).2 := by
          simp [assignRespIds, hps, hrole]
        refine ⟨?_, ?_, ?_⟩
        · rw [hsplit]
          rw [show userRespIds ({ c with parts := some (assignRespIdsParts ids ps j).1 }
                  :: (assignRespIds ids cs (assignRespIdsParts ids ps j).2).1)
                = partRespIds (assignRespIdsParts ids ps j).1
                  ++ userRespIds (assignRespIds ids cs (assignRespIdsParts ids ps j).2).1 from by
            simp [userRespIds, hroleEq]]
          rw [a1, a2, b1, hur]
          rw [List.length_append, List.take_add, List.map_append, List.drop_drop]
        · rw [hsplit2, a2, b2, hur]
          rw [List.length_append]
          omega
        · rw [hsplit]
          rw [show modelCallIds ({ c with parts := some (assignRespIdsParts ids ps j).1 }
                  :: (assignRespIds ids cs (assignRespIdsParts ids ps j).2).1)
                = modelCallIds (assignRespIds ids cs (assignRespIdsParts ids ps j).2).1 from by
            simp [modelCallIds, hroleEq]]
          rw [a2, b3]
          simp [modelCallIds, hroleEq, hps]
      · have hrole' : (c.role == "user") = false := by simpa using hrole
        have hur : userRespIds (c :: cs) = userRespIds cs := by
          simp [userRespIds, hrole']
        rw [hur] at hnone hlen
        obtain ⟨g1, g2, g3⟩ := ih j hnone hlen
        have hsplit : (assignRespIds ids (c :: cs) j).1
            = c :: (assignRespIds ids cs j).1 := by
          simp [assignRespIds, hps, hrole']
        have hsplit2 : (assignRespIds ids (c :: cs) j).2
            = (assignRespIds ids cs j).2 := by
          simp [assignRespIds, hps, hrole']
        refine ⟨?_, ?_, ?_⟩
        · rw [hsplit]
          rw [show userRespIds (c :: (assignRespIds ids cs j).1)
                = userRespIds (assignRespIds ids cs j).1 from by
            simp [userRespIds, hrole']]
          rw [hur, g1]
        · rw [hsplit2, hur, g2]
        · rw [hsplit]
          simp only [modelCallIds]
          rw [g3]

/-- C6 (amended): provided every `functionResponse` part in the `user`
messages carries no pre-existing id and there are exactly as many such
responses as there are `functionCall` parts in `model` messages, after ID
threading the i-th response id equals the i-th call id — the two id lists
coincide.  (A response that already carries an id consumes no collected id
and shifts every later assignment, see `c6_counterexample`.) -/
theorem c6_amended (gen : Nat → String) (contents : List GemContent)
    (hnone : ∀ o ∈ userRespIds contents, o = none)
    (hcount : (userRespIds contents).length = (modelCallIds contents).length) :
    userRespIds (processFunctionCallIds gen contents) =
      modelCallIds (processFunctionCallIds gen contents) := by
  obtain ⟨ids, h1, h2, h3, h4⟩ := assignCallIds_spec gen contents 0 []
  have hids : (assignCallIds gen contents 0 []).2.2 = ids := by simpa using h1
  have hnone1 : ∀ o ∈ userRespIds (assignCallIds gen contents 0 []).1, o = none := by
    rw [h3]
    exact hnone
  have hlen1 : (userRespIds (assignCallIds gen contents 0 []).1).length
      ≤ (ids.drop 0).length := by
    rw [h3, List.drop_zero, hcount, ← h4]
  obtain ⟨g1, g2, g3⟩ :=
    assignRespIds_spec ids (assignCallIds gen contents 0 []).1 0 hnone1 hlen1
  have hproc : processFunctionCallIds gen contents
      = (assignRespIds ids (assignCallIds gen contents 0 []).1 0).1 := by
    simp only [processFunctionCallIds]
    rw [hids]
  rw [hproc, g1, g3, h2, h3]
  rw [hcount, ← h4, List.drop_zero, List.take_length]

/-- History of the C6 witness: one id-less call, one id-less response. -/
def c6WContents : List GemContent :=
  [ { role := "model", parts := some [callPart none] },
    { role := "user", parts := some [respPart none] } ]

/-- Witness for C6: the amended theorem applied to `c6WContents` with a
constant fresh-id supply. -/
theorem c6_amended_witness :
    userRespIds (processFunctionCallIds (fun _ => "gen0") c6WContents) =
      modelCallIds (processFunctionCallIds (fun _ => "gen0") c6WContents) :=
  c6_amended (fun _ => "gen0") c6WContents (by decide) (by decide)

/-- Upstream tool call as the per-delta callback sees it (`id`, `function`
name, `arguments`).  `args = some v` models `JSON.parse(arguments)`
succeeding with value `v` (kept abstract); `args = none` models the parse
throwing. -/
structure UpToolCall where
  id : String
  name : String
  args : Option String
  thoughtSignature : Option String
deriving Repr, DecidableEq

/-- Upstream delta union forwarded by the requester (spec §4.H): reasoning,
content, tool calls, or usage. -/
inductive UpDelta where
  | reasoning (text : String) (thoughtSignature : Option String)
  | content (text : String)
  | tool_calls (calls : List UpToolCall)
  | usage (completion_tokens : Int)
deriving Repr, DecidableEq

/-- Claude SSE event names with their block index; payloads are elided
because the claims concern the event sequence and indices only. -/
inductive ClaudeEvent where
  | message_start
  | content_block_start (index : Nat)
  | content_block_delta (index : Nat)
  | content_block_stop (index : Nat)
  | message_delta
  | message_stop
deriving Repr, DecidableEq

/-- Kind of the currently open content block (`currentBlockType`). -/
inductive BlockType where
  | thinking
  | text
deriving Repr, DecidableEq

/-- Streaming cursor of `handleClaudeRequest`: `contentIndex`,
`currentBlockType` (`none` = no open block), `reasoningSent`,
`hasToolCall`. -/
structure ClaudeStreamState where
  contentIndex : Nat
  currentBlockType : Option BlockType
  reasoningSent : Bool
  hasToolCall : Bool
deriving Repr, DecidableEq

/-- Events of the per-tool loop in the `tool_calls` branch: a tool call
whose arguments parse emits `start/​delta/​stop` at the current index and
advances it; a tool call whose arguments fail to parse is skipped entirely
(no events, no index change).  Returns the final index with the events. -/
def claudeToolEvents : Nat → List UpToolCall → Nat × List ClaudeEvent
  | idx, [] => (idx, [])
  | idx, tc :: rest =>
    match tc.args with
    | some _ =>
      let r := claudeToolEvents (idx + 1) rest
      (r.1, ClaudeEvent.content_block_start idx :: ClaudeEvent.content_block_delta idx ::
        ClaudeEvent.content_block_stop idx :: r.2)
    | none => claudeToolEvents idx rest

/-- One delta of the Claude streaming callback in `handleClaudeRequest`:
the new cursor state and the events written. -/
def claudeStep (s : ClaudeStreamState) (d : UpDelta) : ClaudeStreamState × List ClaudeEvent :=
  match d with
  | .usage _ => (s, [])
  | .reasoning _ _ =>
    if s.reasoningSent then
      (s, [ClaudeEvent.content_block_delta s.contentIndex])
    else
      ({ s with currentBlockType := some BlockType.thinking, reasoningSent := true },
        [ClaudeEvent.content_block_start s.contentIndex,
         ClaudeEvent.content_block_delta s.contentIndex])
  | .tool_calls tcs =>
    if s.currentBlockType.isSome then
      let r := claudeToolEvents (s.contentIndex + 1) tcs
      ({ s with contentIndex := r.1, currentBlockType := none, hasToolCall := true },
        ClaudeEvent.content_block_stop s.contentIndex :: r.2)
    else
      let r := claudeToolEvents s.contentIndex tcs
      ({ s with contentIndex := r.1, currentBlockType := none, hasToolCall := true }, r.2)
  | .content _ =>
    if s.currentBlockType == some BlockType.thinking then
      ({ s with contentIndex := s.contentIndex + 1, currentBlockType := some BlockType.text },
        [ClaudeEvent.content_block_stop s.contentIndex,
         ClaudeEvent.content_block_start (s.contentIndex + 1),
         ClaudeEvent.content_block_delta (s.contentIndex + 1)])
    else if s.currentBlockType == some BlockType.text then
      (s, [ClaudeEvent.content_block_delta s.contentIndex])
    else
      ({ s with currentBlockType := some BlockType.text },
        [ClaudeEvent.content_block_start s.contentIndex,
         ClaudeEvent.content_block_delta s.contentIndex])

/-- Fold of `claudeStep` over a delta sequence. -/
def claudeRun : ClaudeStreamState → List UpDelta → ClaudeStreamState × List ClaudeEvent
  | s, [] => (s, [])
  | s, d :: ds =>
    let r1 := claudeStep s d
    let r2 := claudeRun r1.1 ds
    (r2.1, r1.2 ++ r2.2)

/-- Cursor state before the first delta. -/
def claudeInitState : ClaudeStreamState :=
  { contentIndex := 0, currentBlockType := none, reasoningSent := false, hasToolCall := false }

/-- Close of the last open block on stream completion. -/
def closingEvents (s : ClaudeStreamState) : List ClaudeEvent :=
  if s.currentBlockType.isSome then [ClaudeEvent.content_block_stop s.contentIndex] else []

/-- Events after `message_start`: the per-delta events, the final close of
an open block, then `message_delta` and `message_stop`. -/
def outEvents (s : ClaudeStreamState) (ds : List UpDelta) : List ClaudeEvent :=
  (claudeRun s ds).2 ++ closingEvents (claudeRun s ds).1
    ++ [ClaudeEvent.message_delta, ClaudeEvent.message_stop]

/-- Complete event sequence of the Claude streaming handler for an
error-free upstream run: `message_start`, the per-delta events, the final
block close, `message_delta`, `message_stop`. -/
def claudeStreamEvents (ds : List UpDelta) : List ClaudeEvent :=
  ClaudeEvent.message_start :: outEvents claudeInitState ds

mutual

/-- Recognizer of the claimed grammar after `message_start`, expecting the
next block to open at index `i`: either the terminal
`message_delta, message_stop`, or `content_block_start i` followed by a
non-empty delta run and `content_block_stop i`, then blocks from `i + 1`. -/
def checkBody : Nat → List ClaudeEvent → Bool
  | _, [ClaudeEvent.message_delta, ClaudeEvent.message_stop] => true
  | i, ClaudeEvent.content_block_start j :: rest => j == i && checkInside i rest
  | _, _ => false

/-- State right after `content_block_start i`: at least one delta must
follow. -/
def checkInside : Nat → List ClaudeEvent → Bool
  | i, ClaudeEvent.content_block_delta j :: rest => j == i && checkAfter i rest
  | _, _ => false

/-- State after one or more deltas of block `i`: more deltas or the stop. -/
def checkAfter : Nat → List ClaudeEvent → Bool
  | i, ClaudeEvent.content_block_delta j :: rest => j == i && checkAfter i rest
  | i, ClaudeEvent.content_block_stop j :: rest => j == i && checkBody (i + 1) rest
  | _, _ => false

end

/-- Recognizer of the full claimed grammar: `message_start`, then blocks
with contiguous indices from `0`, then `message_delta`, `message_stop`. -/
def checkClaudeGrammar : List ClaudeEvent → Bool
  | ClaudeEvent.message_start :: rest => checkBody 0 rest
  | _ => false

/-- Shape hypothesis under which the grammar holds: every reasoning delta
arrives before the first content or tool-call delta (the flag records that
a content / tool-call delta has occurred). -/
def reasoningPrefixOnly : Bool → List UpDelta → Bool
  | _, [] => true
  | seen, d :: ds =>
    match d with
    | .reasoning _ _ => !seen && reasoningPrefixOnly seen ds
    | .content _ => reasoningPrefixOnly true ds
    | .tool_calls _ => reasoningPrefixOnly true ds
    | .usage _ => reasoningPrefixOnly seen ds

/-- Checker to apply depending on whether a block is currently open. -/
def checkFrom (bt : Option BlockType) (i : Nat) (evs : List ClaudeEvent) : Bool :=
  match bt with
  | none => checkBody i evs
  | some _ => checkAfter i evs

/-- Unfolding of `outEvents` over one delta. -/
theorem outEvents_cons (s : ClaudeStreamState) (d : UpDelta) (ds : List UpDelta) :
    outEvents s (d :: ds) = (claudeStep s d).2 ++ outEvents (claudeStep s d).1 ds := by
  simp [outEvents, claudeRun, List.append_assoc]

/-- Tool-call blocks parse as complete blocks: the events of the per-tool
loop starting at `j` followed by anything that parses from the final index
parse from `j`. -/
theorem checkBody_toolEvents (rest : List ClaudeEvent) :
    ∀ (tcs : List UpToolCall) (j : Nat),
      checkBody (claudeToolEvents j tcs).1 rest = true →
      checkBody j ((claudeToolEvents j tcs).2 ++ rest) = true := by
  intro tcs
  induction tcs with
  | nil =>
    intro j h
    simpa [claudeToolEvents] using h
  | cons tc tcs ih =>
    intro j h
    rcases ha : tc.args with _ | v
    · simp only [claudeToolEvents, ha] at h ⊢
      exact ih j h
    · simp only [claudeToolEvents, ha] at h ⊢
      have hrec := ih (j + 1) h
      simp [checkBody, checkInside, checkAfter, List.cons_append, hrec]

/-- Invariant of `handleClaudeRequest` while only reasoning deltas have
arrived: either nothing has been emitted yet, or the thinking block is
open. -/
def reasoningPhaseInv (seen : Bool) (s : ClaudeStreamState) : Prop :=
  seen = false →
    (s.currentBlockType = none ∧ s.reasoningSent = false) ∨
    (s.currentBlockType = some BlockType.thinking ∧ s.reasoningSent = true)

/-- Main induction for C5: from any cursor state satisfying the reasoning
phase invariant, the remaining events (per-delta events, final close,
terminal pair) parse with the checker matching the open-block status. -/
theorem claudeRun_grammar (ds : List UpDelta) :
    ∀ (s : ClaudeStreamState) (seen : Bool),
      reasoningPrefixOnly seen ds = true →
      reasoningPhaseInv seen s →
      checkFrom s.currentBlockType s.contentIndex (outEvents s ds) = true := by
  induction ds with
  | nil =>
    intro s seen _ _
    rcases hbt : s.currentBlockType with _ | bt <;>
      simp [checkFrom, outEvents, claudeRun, closingEvents, hbt, checkBody, checkAfter]
  | cons d ds ih =>
    intro s seen hpre hinv
    rcases d with ⟨txt, sig⟩ | txt | tcs | u
    · -- reasoning delta: only legal before the first content/tool delta
      have hseen : seen = false := by
        by_cases hs : seen = true
        · rw [hs] at hpre
          simp [reasoningPrefixOnly] at hpre
        · simpa using hs
      have hpre' : reasoningPrefixOnly seen ds = true := by
        rw [hseen] at hpre ⊢
        simpa [reasoningPrefixOnly] using hpre
      rcases hinv hseen with ⟨hbt, hrs⟩ | ⟨hbt, hrs⟩
      · -- nothing open yet: open the thinking block
        have hstep : claudeStep s (UpDelta.reasoning txt sig) = (⟨s.contentIndex, some BlockType.thinking, true, s.hasToolCall⟩, [ClaudeEvent.content_block_start s.contentIndex, ClaudeEvent.content_block_delta s.contentIndex]) := by
          simp [claudeStep, hrs]
        have hnext := ih ⟨s.contentIndex, some BlockType.thinking, true, s.hasToolCall⟩ seen hpre' (fun _ => Or.inr ⟨rfl, rfl⟩)
        rw [outEvents_cons, hstep]
        simp only [checkFrom, hbt]
        simp only [checkFrom] at hnext
        simp [checkBody, checkInside, List.cons_append, hnext]
      · -- thinking block open: another thinking delta
        have hstep : claudeStep s (UpDelta.reasoning txt sig) = (s, [ClaudeEvent.content_block_delta s.contentIndex]) := by
          simp [claudeStep, hrs]
        have hnext := ih s seen hpre' hinv
        rw [outEvents_cons, hstep]
        simp only [checkFrom, hbt]
        simp only [checkFrom, hbt] at hnext
        simp [checkAfter, List.cons_append, hnext]
    · -- content delta
      have hpre' : reasoningPrefixOnly true ds = true := by
        simpa [reasoningPrefixOnly] using hpre
      rcases hbt : s.currentBlockType with _ | bt
      · -- open a text block
        have hstep : claudeStep s (UpDelta.content txt) = (⟨s.contentIndex, some BlockType.text, s.reasoningSent, s.hasToolCall⟩, [ClaudeEvent.content_block_start s.contentIndex, ClaudeEvent.content_block_delta s.contentIndex]) := by
          simp [claudeStep, hbt]
        have hnext := ih ⟨s.contentIndex, some BlockType.text, s.reasoningSent, s.hasToolCall⟩ true hpre' (fun h => nomatch h)
        rw [outEvents_cons, hstep]
        simp only [checkFrom, hbt]
        simp only [checkFrom] at hnext
        simp [checkBody, checkInside, List.cons_append, hnext]
      · rcases bt with _ | _
        · -- close thinking, open text at the next index
          have hstep : claudeStep s (UpDelta.content txt) = (⟨s.contentIndex + 1, some BlockType.text, s.reasoningSent, s.hasToolCall⟩, [ClaudeEvent.content_block_stop s.contentIndex, ClaudeEvent.content_block_start (s.contentIndex + 1), ClaudeEvent.content_block_delta (s.contentIndex + 1)]) := by
            simp [claudeStep, hbt]
          have hnext := ih ⟨s.contentIndex + 1, some BlockType.text, s.reasoningSent, s.hasToolCall⟩ true hpre' (fun h => nomatch h)
          rw [outEvents_cons, hstep]
          simp only [checkFrom, hbt]
          simp only [checkFrom] at hnext
          simp [checkAfter, checkBody, checkInside, List.cons_append, hnext]
        · -- inside the text block: another text delta
          have hstep : claudeStep s (UpDelta.content txt) = (s, [ClaudeEvent.content_block_delta s.contentIndex]) := by
            simp [claudeStep, hbt]
          have hnext := ih s true hpre' (fun h => nomatch h)
          rw [outEvents_cons, hstep]
          simp only [checkFrom, hbt]
          simp only [checkFrom, hbt] at hnext
          simp [checkAfter, List.cons_append, hnext]
    · -- tool_calls delta
      have hpre' : reasoningPrefixOnly true ds = true := by
        simpa [reasoningPrefixOnly] using hpre
      rcases hbt : s.currentBlockType with _ | bt
      · -- no open block: just the per-tool blocks
        have hstep : claudeStep s (UpDelta.tool_calls tcs) = (⟨(claudeToolEvents s.contentIndex tcs).1, none, s.reasoningSent, true⟩, (claudeToolEvents s.contentIndex tcs).2) := by
          simp [claudeStep, hbt]
        have hnext := ih ⟨(claudeToolEvents s.contentIndex tcs).1, none, s.reasoningSent, true⟩ true hpre' (fun h => nomatch h)
        rw [outEvents_cons, hstep]
        simp only [checkFrom, hbt]
        simp only [checkFrom] at hnext
        exact checkBody_toolEvents _ tcs s.contentIndex hnext
      · -- close the open block, then the per-tool blocks
        have hstep : claudeStep s (UpDelta.tool_calls tcs) = (⟨(claudeToolEvents (s.contentIndex + 1) tcs).1, none, s.reasoningSent, true⟩, ClaudeEvent.content_block_stop s.contentIndex :: (claudeToolEvents (s.contentIndex + 1) tcs).2) := by
          simp [claudeStep, hbt]
        have hnext := ih ⟨(claudeToolEvents (s.contentIndex + 1) tcs).1, none, s.reasoningSent, true⟩ true hpre' (fun h => nomatch h)
        rw [outEvents_cons, hstep]
        simp only [checkFrom, hbt]
        simp only [checkFrom] at hnext
        have htool := checkBody_toolEvents _ tcs (s.contentIndex + 1) hnext
        simp [checkAfter, List.cons_append, htool]
    · -- usage delta: no events
      have hpre' : reasoningPrefixOnly seen ds = true := by
        simpa [reasoningPrefixOnly] using hpre
      have hstep : claudeStep s (UpDelta.usage u) = (s, []) := by
        simp [claudeStep]
      have hnext := ih s seen hpre' hinv
      rw [outEvents_cons, hstep]
      simpa using hnext

/-- C5 (amended): for every upstream delta sequence that completes without
error and in which all reasoning deltas precede the first content or
tool-call delta, the Claude streaming handler emits `message_start`, then
complete blocks — `content_block_start`, one or more `content_block_delta`,
`content_block_stop` — with indices contiguous from `0`, then
`message_delta` and `message_stop`.  (A reasoning delta arriving after a
content or tool-call delta re-opens or orphans a block and breaks the
grammar, see `c5_counterexample`.) -/
theorem c5_claude_stream_grammar (ds : List UpDelta)
    (h : reasoningPrefixOnly false ds = true) :
    checkClaudeGrammar (claudeStreamEvents ds) = true := by
  have hmain := claudeRun_grammar ds claudeInitState false h (fun _ => Or.inl ⟨rfl, rfl⟩)
  simpa [claudeStreamEvents, checkClaudeGrammar, checkFrom, claudeInitState] using hmain

/-- Witness for C5: the amended theorem applied to the spec's
thinking-then-text scenario. -/
theorem c5_claude_stream_grammar_witness :
    checkClaudeGrammar (claudeStreamEvents
      [UpDelta.reasoning "let me think" none, UpDelta.reasoning "." none,
       UpDelta.content "Hello", UpDelta.usage 5]) = true :=
  c5_claude_stream_grammar _ (by decide)

/-- C5 counterexample: a content delta followed by a (first) reasoning delta
makes the handler emit a second `content_block_start` at the same index
without closing the open text block — the claimed grammar fails. -/
theorem c5_counterexample :
    checkClaudeGrammar (claudeStreamEvents
      [UpDelta.content "Hello", UpDelta.reasoning "think" none]) = false := by
  decide

/-- Part of a Gemini wire response built by `createGeminiResponse`. -/
inductive GeminiPart where
  | thoughtPart (text : String) (thoughtSignature : Option String)
  | textPart (text : String)
  | functionCallPart (name : String) (args : String) (thoughtSignature : Option String)
deriving Repr, DecidableEq

/-- Upstream usage triple. -/
structure GeminiUsage where
  prompt_tokens : Int
  completion_tokens : Int
  total_tokens : Int
deriving Repr, DecidableEq

/-- Gemini `usageMetadata` object. -/
structure GeminiUsageMetadata where
  promptTokenCount : Int
  candidatesTokenCount : Int
  totalTokenCount : Int
deriving Repr, DecidableEq

/-- Gemini wire response: the single candidate's parts, its `finishReason`,
and optional `usageMetadata`. -/
structure GeminiResponse where
  parts : List GeminiPart
  finishReason : String
  usageMetadata : Option GeminiUsageMetadata
deriving Repr, DecidableEq

/-- Tool-call loop of `createGeminiResponse`: a call whose arguments parse
becomes a `functionCall` part; a call whose arguments fail to parse is
silently skipped (the `catch` branch ignores the error). -/
def geminiToolParts (passSig : Bool) : List UpToolCall → List GeminiPart
  | [] => []
  | tc :: rest =>
    match tc.args with
    | some parsed =>
      GeminiPart.functionCallPart tc.name parsed
          (if !jsFalsyStr tc.thoughtSignature && passSig then tc.thoughtSignature else none)
        :: geminiToolParts passSig rest
    | none => geminiToolParts passSig rest

/-- Gemini response builder of the gateway frontend
(`createGeminiResponse`): optional thought part, optional text part, then
the tool-call parts; `finishReason` falls back to `STOP`; `usageMetadata`
present iff a usage was given.  `passSig` is `config.passSignatureToClient`. -/
def createGeminiResponse (passSig : Bool) (content reasoning reasoningSignature : Option String)
    (toolCalls : Option (List UpToolCall)) (finishReason : Option String)
    (usage : Option GeminiUsage) : GeminiResponse :=
  let parts1 : List GeminiPart :=
    if !jsFalsyStr reasoning then
      [GeminiPart.thoughtPart (reasoning.getD "")
        (if !jsFalsyStr reasoningSignature && passSig then reasoningSignature else none)]
    else []
  let parts2 : List GeminiPart :=
    if !jsFalsyStr content then [GeminiPart.textPart (content.getD "")] else []
  let parts3 : List GeminiPart :=
    match toolCalls with
    | some tcs => if tcs.length > 0 then geminiToolParts passSig tcs else []
    | none => []
  { parts := parts1 ++ parts2 ++ parts3
    finishReason := if !jsFalsyStr finishReason then finishReason.getD "" else "STOP"
    usageMetadata := usage.map fun u =>
      { promptTokenCount := u.prompt_tokens
        candidatesTokenCount := u.completion_tokens
        totalTokenCount := u.total_tokens } }

/-- Helper for C10: the Gemini tool-part loop ignores tool calls with
unparseable arguments. -/
theorem geminiToolParts_filter (passSig : Bool) :
    ∀ tcs : List UpToolCall,
      geminiToolParts passSig tcs
        = geminiToolParts passSig (tcs.filter fun tc => tc.args.isSome) := by
  intro tcs
  induction tcs with
  | nil => rfl
  | cons tc tcs ih =>
    rcases ha : tc.args with _ | v <;>
      simp [geminiToolParts, List.filter_cons, ha, ih]

/-- Helper for C10: the Claude tool-event loop ignores tool calls with
unparseable arguments (no events, no index advance). -/
theorem claudeToolEvents_filter :
    ∀ (tcs : List UpToolCall) (j : Nat),
      claudeToolEvents j tcs = claudeToolEvents j (tcs.filter fun tc => tc.args.isSome) := by
  intro tcs
  induction tcs with
  | nil => intro _; rfl
  | cons tc tcs ih =>
    intro j
    rcases ha : tc.args with _ | v <;>
      simp [claudeToolEvents, List.filter_cons, ha, ih]

/-- C10: a tool call whose `arguments` string is not valid JSON is dropped
everywhere without surfacing an error — the Gemini response builder omits
its `functionCall` part, and the Claude streaming handler emits no events
for it and does not advance the block index: both are invariant under
filtering the tool-call list down to the calls whose arguments parse. -/
theorem c10_invalid_tool_args_dropped (passSig : Bool)
    (content reasoning sig : Option String) (tcs : List UpToolCall)
    (fr : Option String) (u : Option GeminiUsage) (s : ClaudeStreamState) :
    createGeminiResponse passSig content reasoning sig (some tcs) fr u
        = createGeminiResponse passSig content reasoning sig
            (some (tcs.filter fun tc => tc.args.isSome)) fr u ∧
    claudeStep s (UpDelta.tool_calls tcs)
        = claudeStep s (UpDelta.tool_calls (tcs.filter fun tc => tc.args.isSome)) := by
  constructor
  · have h3 : (if tcs.length > 0 then geminiToolParts passSig tcs else [])
        = (if (tcs.filter fun tc => tc.args.isSome).length > 0
            then geminiToolParts passSig (tcs.filter fun tc => tc.args.isSome) else []) := by
      by_cases h1 : tcs.length > 0
      · by_cases h2 : (tcs.filter fun tc => tc.args.isSome).length > 0
        · simp only [h1, h2, if_pos]
          exact geminiToolParts_filter passSig tcs
        · have hf : (tcs.filter fun tc => tc.args.isSome) = [] :=
            List.length_eq_zero.mp (by omega)
          simp only [h1, if_pos, h2, if_neg]
          rw [geminiToolParts_filter passSig tcs, hf]
          rfl
      · have ht : tcs = [] := List.length_eq_zero.mp (by omega)
        subst ht
        simp
    simp only [createGeminiResponse]
    rw [h3]
  · simp only [claudeStep]
    rw [claudeToolEvents_filter tcs (s.contentIndex + 1),
      claudeToolEvents_filter tcs s.contentIndex]
